import Mathlib

/-!
Shallow embedding of the isc-slayer core: the detail-page field extractor
(`src/requests_hybrid.py` `_parse_detail_page_html`, identical logic in
`src/scraper.py` `extract_policy_details`), the record assembler
(`process_policy` / `search_policy`), the summary-row parser
(`_extract_search_results_data`) and the batch loops of `src/ui.py`
(`process_data`, `process_data_concurrent`).

Modelling conventions:
* Markup strings are Lean `String`s, processed as `List Char`.
* The Python `re` patterns used by the source are fixed and simple enough
  that each one is translated into a deterministic character-level scanner
  with the same leftmost-match semantics (`re.search`) or non-overlapping
  left-to-right semantics (`re.findall`, `re.sub`).  The character classes
  `\d` and `\s` are modelled by their ASCII meaning.
* `datetime.strptime(_, '%m/%d/%Y')` is modelled by `strptimeMDY`,
  including calendar validation (month range, day-of-month range, leap
  years) — an invalid date raises in Python and yields `none` here.
* `datetime.now().year` is an environment input, passed as `currentYear`.
* Network fetches are environment inputs: a fetch either yields markup
  (`some html`) or fails (`none`, covering non-200 responses, transport
  errors and raised exceptions that the source converts to `{}`).
-/

/-- ASCII model of Python whitespace for `\s`, `str.strip` and `str.split`:
space, tab, newline, carriage return, vertical tab, form feed. -/
def isPySpace (c : Char) : Bool :=
  c == ' ' || c == '\t' || c == '\n' || c == '\r' || c == Char.ofNat 11 || c == Char.ofNat 12

/-- Python `str.strip()` on a character list. -/
def pyStrip (l : List Char) : List Char :=
  ((l.dropWhile isPySpace).reverse.dropWhile isPySpace).reverse

/-- Python `str.strip()` on a `String`. -/
def pyStripS (s : String) : String :=
  (pyStrip s.data).asString

/-- Python `str.split('-')`: split at every hyphen, keeping empty parts. -/
def pySplitHyphen (l : List Char) : List (List Char) :=
  l.splitOnP (fun c => c == '-')

/-- `re.search` position scan: try the matcher at every start position,
left to right, and return the first success (leftmost match). -/
def searchScan (m : List Char → Option β) : List Char → Option β
  | [] => m []
  | c :: t =>
    match m (c :: t) with
    | some r => some r
    | none => searchScan m t

/-- One `\d{2}/\d{2}/\d{4}` token at the current position: the ten matched
characters and the rest of the input. -/
def matchDateAt (l : List Char) : Option (List Char × List Char) :=
  match l with
  | a :: b :: '/' :: c :: d :: '/' :: e :: f :: g :: h :: rest =>
    if a.isDigit && b.isDigit && c.isDigit && d.isDigit &&
       e.isDigit && f.isDigit && g.isDigit && h.isDigit then
      some ([a, b, '/', c, d, '/', e, f, g, h], rest)
    else none
  | _ => none

/-- `(\d{2}/\d{2}/\d{4})\s*-\s*(\d{2}/\d{2}/\d{4})` anchored at the current
position: the two captured dates and the rest of the input after the match.
The greedy `\s*` before the literal `-` (and before the second date) is
deterministic: it must consume exactly the whitespace run. -/
def matchRangeAt (l : List Char) : Option ((String × String) × List Char) :=
  match matchDateAt l with
  | none => none
  | some (d1, r1) =>
    match r1.dropWhile isPySpace with
    | '-' :: r2 =>
      match matchDateAt (r2.dropWhile isPySpace) with
      | some (d2, r3) => some ((d1.asString, d2.asString), r3)
      | none => none
    | _ => none

/-- `re.findall` non-overlapping scan: at each position try the matcher;
on success emit the captures and resume after the consumed text, otherwise
advance one character.  `fuel` bounds the recursion; every step consumes at
least one character, so `l.length + 1` fuel is always enough. -/
def scanAllGo (m : List Char → Option (β × List Char)) : Nat → List Char → List β
  | 0, _ => []
  | _ + 1, [] => []
  | fuel + 1, c :: t =>
    match m (c :: t) with
    | some (b, rest) => b :: scanAllGo m fuel rest
    | none => scanAllGo m fuel t

/-- `re.findall` over a whole input. -/
def scanAll (m : List Char → Option (β × List Char)) (l : List Char) : List β :=
  scanAllGo m (l.length + 1) l

/-- The label that anchors Strategies A and B (`'Policy Term:'`). -/
def policyTermLabel : List Char := "Policy Term:".data

/-- Strategy A, from `requests_hybrid.py` lines 384-391 / `scraper.py`
lines 168-174: `re.search(r'Policy Term:.*?(\d{2}/\d{2}/\d{4})\s*-\s*(\d{2}/\d{2}/\d{4})', html, re.DOTALL)`.
Leftmost match: the first position carrying the literal label such that a
date range occurs anywhere later; the lazy `.*?` makes the captured range
the earliest one after that label. -/
def strategyA (html : String) : Option (String × String) :=
  searchScan
    (fun l =>
      if policyTermLabel.isPrefixOf l then
        searchScan (fun s => (matchRangeAt s).map Prod.fst) (l.drop policyTermLabel.length)
      else none)
    html.data

/-- The structural match of Strategy B at one position, from the pattern
`<dt[^>]*>Policy Term:</dt>\s*<dd[^>]*>([^<]+)</dd>`.  Returns the `[^<]+`
capture.  Each greedy sub-pattern (`[^>]*` before `>`, `[^<]+` before
`</dd>`) is deterministic because the bounding character cannot occur
inside the class. -/
def matchBAt (l : List Char) : Option (List Char) :=
  match l with
  | '<' :: 'd' :: 't' :: r1 =>
    match r1.dropWhile (fun c => c ≠ '>') with
    | '>' :: r3 =>
      if "Policy Term:</dt>".data.isPrefixOf r3 then
        match (r3.drop 17).dropWhile isPySpace with
        | '<' :: 'd' :: 'd' :: r5 =>
          match r5.dropWhile (fun c => c ≠ '>') with
          | '>' :: r7 =>
            let cap := r7.takeWhile (fun c => c ≠ '<')
            if cap.isEmpty then none
            else if "</dd>".data.isPrefixOf (r7.dropWhile (fun c => c ≠ '<')) then some cap
            else none
          | _ => none
        | _ => none
      else none
    | _ => none
  | _ => none

/-- The raw text captured by the first Strategy B structural match
(`re.search` leftmost semantics), before any processing. -/
def searchBText (html : String) : Option (List Char) :=
  searchScan matchBAt html.data

/-- Processing of the captured term text, from `requests_hybrid.py` lines
397-404 / `scraper.py` lines 180-189: strip it, split on `'-'`, strip each
part, and succeed exactly when there are two parts. -/
def splitTermText (raw : List Char) : Option (String × String) :=
  match (pySplitHyphen (pyStrip raw)).map pyStrip with
  | [a, b] => some (a.asString, b.asString)
  | _ => none

/-- Strategy B: first structural match, then the hyphen split. -/
def strategyB (html : String) : Option (String × String) :=
  (searchBText html).bind splitTermText

/-- A proleptic-Gregorian date as produced by
`datetime.strptime(_, '%m/%d/%Y')`. -/
structure PDate where
  year : Nat
  month : Nat
  day : Nat
deriving DecidableEq, Repr

/-- Gregorian leap-year rule, as used by `datetime`. -/
def isLeap (y : Nat) : Bool :=
  y % 4 == 0 && (!(y % 100 == 0) || y % 400 == 0)

/-- Number of days in a month, as validated by `datetime`. -/
def daysInMonth (y m : Nat) : Nat :=
  if m = 2 then (if isLeap y then 29 else 28)
  else if m = 4 ∨ m = 6 ∨ m = 9 ∨ m = 11 then 30
  else 31

/-- Decimal value of a digit list. -/
def digitsToNat (l : List Char) : Nat :=
  l.foldl (fun a c => 10 * a + (c.toNat - '0'.toNat)) 0

/-- `datetime.strptime(s, '%m/%d/%Y')` on the fixed-shape strings produced
by `matchDateAt` (two digits, slash, two digits, slash, four digits).  An
out-of-range month, day or year raises `ValueError` in Python and yields
`none` here (`datetime` requires `1 <= year`). -/
def strptimeMDY (s : String) : Option PDate :=
  match s.data with
  | [m1, m2, '/', d1, d2, '/', y1, y2, y3, y4] =>
    if m1.isDigit && m2.isDigit && d1.isDigit && d2.isDigit &&
       y1.isDigit && y2.isDigit && y3.isDigit && y4.isDigit then
      let m := digitsToNat [m1, m2]
      let d := digitsToNat [d1, d2]
      let y := digitsToNat [y1, y2, y3, y4]
      if 1 ≤ m ∧ m ≤ 12 ∧ 1 ≤ y ∧ 1 ≤ d ∧ d ≤ daysInMonth y m then
        some ⟨y, m, d⟩
      else none
    else none
  | _ => none

/-- `datetime` comparison: lexicographic on (year, month, day). -/
def dateLt (a b : PDate) : Prop :=
  a.year < b.year ∨ (a.year = b.year ∧
    (a.month < b.month ∨ (a.month = b.month ∧ a.day < b.day)))

instance (a b : PDate) : Decidable (dateLt a b) := by
  unfold dateLt; infer_instance

/-- All non-overlapping `MM/DD/YYYY - MM/DD/YYYY` matches of the document,
in document order: `re.findall(general_date_pattern, html)`. -/
def findRanges (html : String) : List (String × String) :=
  scanAll matchRangeAt html.data

/-- The Strategy C candidate loop, from `requests_hybrid.py` lines 412-429
/ `scraper.py` lines 197-214: parse both dates (an unparsable date raises
and the candidate is skipped), then accept the first candidate with
`start.year >= current_year - 1`, `end.year <= current_year + 2` and
`end > start`; otherwise continue with the next candidate. -/
def strategyCLoop (currentYear : Nat) : List (String × String) → Option (String × String)
  | [] => none
  | c :: rest =>
    match strptimeMDY c.1, strptimeMDY c.2 with
    | some s, some e =>
      if (currentYear : Int) - 1 ≤ (s.year : Int) ∧
         (e.year : Int) ≤ (currentYear : Int) + 2 ∧ dateLt s e then
        some c
      else strategyCLoop currentYear rest
    | _, _ => strategyCLoop currentYear rest

/-- Strategy C: run the candidate loop over all non-overlapping range
matches of the document. -/
def strategyC (html : String) (currentYear : Nat) : Option (String × String) :=
  strategyCLoop currentYear (findRanges html)

/-- The acceptance predicate of Strategy C, in declarative form. -/
def validCandidate (currentYear : Nat) (c : String × String) : Bool :=
  match strptimeMDY c.1, strptimeMDY c.2 with
  | some s, some e =>
    decide ((currentYear : Int) - 1 ≤ (s.year : Int)) &&
    decide ((e.year : Int) ≤ (currentYear : Int) + 2) &&
    decide (dateLt s e)
  | _, _ => false

/-- Cancellation pattern 1 at one position:
`Cancellation Date:\s*</dt>\s*<dd[^>]*>\s*(\d{2}/\d{2}/\d{4})`. -/
def matchCanc1At (l : List Char) : Option String :=
  if "Cancellation Date:".data.isPrefixOf l then
    let r1 := (l.drop 18).dropWhile isPySpace
    if "</dt>".data.isPrefixOf r1 then
      match (r1.drop 5).dropWhile isPySpace with
      | '<' :: 'd' :: 'd' :: r3 =>
        match r3.dropWhile (fun c => c ≠ '>') with
        | '>' :: r5 =>
          match matchDateAt (r5.dropWhile isPySpace) with
          | some (d, _) => some d.asString
          | none => none
        | _ => none
      | _ => none
    else none
  else none

/-- Cancellation fallback pattern at one position:
`Cancellation Date:\s*</dt>\s*<dd[^>]*>([^<]+)</dd>`, returning the raw
`[^<]+` capture. -/
def matchCanc2At (l : List Char) : Option (List Char) :=
  if "Cancellation Date:".data.isPrefixOf l then
    let r1 := (l.drop 18).dropWhile isPySpace
    if "</dt>".data.isPrefixOf r1 then
      match (r1.drop 5).dropWhile isPySpace with
      | '<' :: 'd' :: 'd' :: r3 =>
        match r3.dropWhile (fun c => c ≠ '>') with
        | '>' :: r5 =>
          let cap := r5.takeWhile (fun c => c ≠ '<')
          if cap.isEmpty then none
          else if "</dd>".data.isPrefixOf (r5.dropWhile (fun c => c ≠ '<')) then some cap
          else none
        | _ => none
      | _ => none
    else none
  else none

/-- `re.search(r'(\d{2}/\d{2}/\d{4})', text)`: first embedded date. -/
def findFirstDate (l : List Char) : Option String :=
  searchScan (fun s => (matchDateAt s).map (fun p => p.1.asString)) l

/-- Cancellation-date extraction, from `requests_hybrid.py` lines 366-380 /
`scraper.py` lines 150-165: try the strict label-anchored pattern; if it
fails, take the first fallback structural match and search its stripped
text for an embedded date. -/
def extractCancellation (html : String) : Option String :=
  match searchScan matchCanc1At html.data with
  | some d => some d
  | none =>
    match searchScan matchCanc2At html.data with
    | some cap => findFirstDate (pyStrip cap)
    | none => none

/-- The mapping returned by the field extractor: a key is absent (`none`)
exactly when the Python dict lacks it. -/
structure Details where
  effective_date : Option String := none
  expiration_date : Option String := none
  cancellation_date : Option String := none
deriving DecidableEq, Repr

/-- The field extractor `_parse_detail_page_html` (`requests_hybrid.py`
lines 360-439; the same chain is `extract_policy_details`, `scraper.py`
lines 136-229): extract the cancellation date, then run Strategy A, then
Strategy B, then Strategy C; the first strategy to produce a date pair
returns immediately. -/
def parse_detail_page_html (html : String) (currentYear : Nat) : Details :=
  let canc := extractCancellation html
  match strategyA html with
  | some (e, x) => { effective_date := some e, expiration_date := some x, cancellation_date := canc }
  | none =>
    match strategyB html with
    | some (e, x) => { effective_date := some e, expiration_date := some x, cancellation_date := canc }
    | none =>
      match strategyC html currentYear with
      | some (e, x) => { effective_date := some e, expiration_date := some x, cancellation_date := canc }
      | none => { cancellation_date := canc }

/-- The summary-row data built by `_extract_search_results_data`
(`requests_hybrid.py` lines 316-325): the keys of the initialized dict, as
strings (no `expiration_date` / `cancellation_date` key is created). -/
structure SearchData where
  policy_number : String
  app_id : String
  status : String
  applicant_company : String
  state : String
  program : String
  total_cost : String
  effective_date : String
deriving DecidableEq, Repr

/-- The record assembled by `process_policy`: the summary fields plus the
two keys that only the detail-page merge may add (`none` = key absent). -/
structure MergedRecord where
  policy_number : String
  app_id : String
  status : String
  applicant_company : String
  state : String
  program : String
  total_cost : String
  effective_date : String
  expiration_date : Option String
  cancellation_date : Option String
deriving DecidableEq, Repr

/-- Python truthiness of `dict.get(key)`: false for a missing key (`None`)
and for the empty string. -/
def truthyStr (o : Option String) : Bool :=
  match o with
  | none => false
  | some s => !s.isEmpty

/-- The merge step of `process_policy` (`requests_hybrid.py` lines
210-218): each detail field overwrites (or is added to) the summary data
exactly when `detail_data.get(field)` is truthy. -/
def process_policy_merge (s : SearchData) (d : Details) : MergedRecord :=
  { policy_number := s.policy_number
    app_id := s.app_id
    status := s.status
    applicant_company := s.applicant_company
    state := s.state
    program := s.program
    total_cost := s.total_cost
    effective_date :=
      match d.effective_date with
      | some t => if !t.isEmpty then t else s.effective_date
      | none => s.effective_date
    expiration_date :=
      match d.expiration_date with
      | some t => if !t.isEmpty then some t else none
      | none => none
    cancellation_date :=
      match d.cancellation_date with
      | some t => if !t.isEmpty then some t else none
      | none => none }

/-- A summary dict viewed as a `MergedRecord` without running the merge
(no `expiration_date` / `cancellation_date` key). -/
def asMerged (s : SearchData) : MergedRecord :=
  ⟨s.policy_number, s.app_id, s.status, s.applicant_company, s.state,
   s.program, s.total_cost, s.effective_date, none, none⟩

/-- `get_application_details` (`requests_hybrid.py` lines 226-244): a
failed detail fetch (non-200 status, transport error, raised exception) is
converted to the empty dict; a successful fetch is parsed. -/
def get_application_details (detailResp : Option String) (currentYear : Nat) : Details :=
  match detailResp with
  | some html => parse_detail_page_html html currentYear
  | none => {}

/-- `process_policy` (`requests_hybrid.py` lines 197-224), over the
environment inputs: the parsed summary-search outcome (`none` when
`search_by_policy` returned no data) and the raw detail-page response.
When the summary search fails the identifier fails (`None`); otherwise the
detail data — empty on detail-fetch failure — is merged in. -/
def process_policy (searchData : Option SearchData) (detailResp : Option String)
    (currentYear : Nat) : Option MergedRecord :=
  match searchData with
  | none => none
  | some s =>
    if !s.app_id.isEmpty then
      some (process_policy_merge s (get_application_details detailResp currentYear))
    else
      some (asMerged s)

/-- Split a character list at the first occurrence of `pat`, returning the
text before it and the text after it. -/
def breakOnSub (pat : List Char) : List Char → Option (List Char × List Char)
  | [] => if pat.isPrefixOf ([] : List Char) then some ([], []) else none
  | c :: t =>
    if pat.isPrefixOf (c :: t) then some ([], (c :: t).drop pat.length)
    else
      match breakOnSub pat t with
      | some (pre, post) => some (c :: pre, post)
      | none => none

/-- `sub.contains` as a substring test on strings. -/
def containsSub (pat s : String) : Bool :=
  (breakOnSub pat.data s.data).isSome

/-- One `<td[^>]*>(.*?)</td>` match at the current position: the lazy
capture runs to the first `</td>`. -/
def matchTdAt (l : List Char) : Option (String × List Char) :=
  match l with
  | '<' :: 't' :: 'd' :: r1 =>
    match r1.dropWhile (fun c => c ≠ '>') with
    | '>' :: r3 =>
      match breakOnSub "</td>".data r3 with
      | some (cap, rest) => some (cap.asString, rest)
      | none => none
    | _ => none
  | _ => none

/-- `re.findall(r'<td[^>]*>(.*?)</td>', row_html, re.DOTALL)`. -/
def findTds (rowHtml : String) : List String :=
  scanAll matchTdAt rowHtml.data

/-- `re.sub(r'<[^>]+>', '', _)`: drop every tag-shaped span, left to
right; a `<` that does not open a tag (no non-empty run up to `>`) is
kept.  Fuel as in `scanAllGo`. -/
def stripTagsGo : Nat → List Char → List Char
  | 0, _ => []
  | _ + 1, [] => []
  | fuel + 1, '<' :: t =>
    match t.dropWhile (fun c => c ≠ '>') with
    | '>' :: rest =>
      if (t.takeWhile (fun c => c ≠ '>')).isEmpty then '<' :: stripTagsGo fuel t
      else stripTagsGo fuel rest
    | _ => '<' :: stripTagsGo fuel t
  | fuel + 1, c :: t => c :: stripTagsGo fuel t

/-- `str.replace('&nbsp;', ' ')`: left-to-right non-overlapping. -/
def replaceNbspGo : Nat → List Char → List Char
  | 0, _ => []
  | _ + 1, [] => []
  | fuel + 1, c :: t =>
    if "&nbsp;".data.isPrefixOf (c :: t) then ' ' :: replaceNbspGo fuel ((c :: t).drop 6)
    else c :: replaceNbspGo fuel t

/-- `' '.join(text.split())`: whitespace-run words joined by single
spaces (Python `str.split()` discards empty words). -/
def normalizeWs (l : List Char) : List Char :=
  List.intercalate [' '] ((l.splitOnP isPySpace).filter (fun w => !w.isEmpty))

/-- `_clean_cell_text` (`requests_hybrid.py` lines 351-358): strip tags,
replace `&nbsp;`, collapse whitespace, strip. -/
def clean_cell_text (cell : String) : String :=
  (pyStrip (normalizeWs (replaceNbspGo (cell.data.length + 1)
    (stripTagsGo (cell.data.length + 1) cell.data)))).asString

/-- The dict-building part of `_extract_search_results_data`
(`requests_hybrid.py` lines 307-345), given the two captures of the row
regex (`app_id` and the row markup): read the positional columns
`[3]status [4]company [5]state [6]program [7]cost [8]effective` when the
row has at least 9 cells, fall back to columns 3-7 with at least 8 cells,
and otherwise keep the initialized empty strings. -/
def extract_row_data (policyNumber appId rowHtml : String) : SearchData :=
  let cells := findTds rowHtml
  let base : SearchData := ⟨policyNumber, appId, "", "", "", "", "", ""⟩
  if cells.length ≥ 9 then
    { base with
      status := clean_cell_text (cells.getD 3 "")
      applicant_company := clean_cell_text (cells.getD 4 "")
      state := clean_cell_text (cells.getD 5 "")
      program := clean_cell_text (cells.getD 6 "")
      total_cost := clean_cell_text (cells.getD 7 "")
      effective_date := clean_cell_text (cells.getD 8 "") }
  else if cells.length ≥ 8 then
    { base with
      status := clean_cell_text (cells.getD 3 "")
      applicant_company := clean_cell_text (cells.getD 4 "")
      state := clean_cell_text (cells.getD 5 "")
      program := clean_cell_text (cells.getD 6 "")
      total_cost := clean_cell_text (cells.getD 7 "") }
  else base

/-- The raw texts read from a matched summary row by the browser scraper
(`scraper.py` lines 85-99): the `data-id` attribute and the
`text_content()` of columns 4-8. -/
structure RowData where
  app_id : String
  status : String
  applicant_company : String
  state : String
  program : String
  total_cost : String
deriving DecidableEq, Repr

/-- The dict literal returned by `search_policy` / `search_policy_with_page`
(`scraper.py` lines 119-130 and 299-310), as an association list: the ten
keys in source order; column texts are stripped; each date field is
`details.get(key, '')`, so an unextracted date is the empty string. -/
def search_policy_record (policyNumber : String) (r : RowData) (d : Details) :
    List (String × String) :=
  [("policy_number", policyNumber),
   ("app_id", r.app_id),
   ("status", pyStripS r.status),
   ("applicant_company", pyStripS r.applicant_company),
   ("state", pyStripS r.state),
   ("program", pyStripS r.program),
   ("total_cost", pyStripS r.total_cost),
   ("effective_date", d.effective_date.getD ""),
   ("expiration_date", d.expiration_date.getD ""),
   ("cancellation_date", d.cancellation_date.getD "")]

/-- Outcome of the browser scraper's detail-page navigation
(`scraper.py` lines 102-116): the navigation succeeds and the detail page
markup is read; or the navigation lands on a URL without `detail/view`
(the source falls back to `details = {}`); or `page.goto` raises (a
transport error), which the `except` at line 132 turns into `return None`. -/
inductive DetailNav where
  | ok (html : String)
  | offPage
  | exc
deriving DecidableEq, Repr

/-- `search_policy` (`scraper.py` lines 51-134) over environment inputs:
the matched summary row (`none` when no row was found or all summary
attempts failed) and the detail-navigation outcome. -/
def search_policy (policyNumber : String) (row : Option RowData) (nav : DetailNav)
    (currentYear : Nat) : Option (List (String × String)) :=
  match row with
  | none => none
  | some r =>
    match nav with
    | .exc => none
    | .offPage => some (search_policy_record policyNumber r {})
    | .ok html => some (search_policy_record policyNumber r (parse_detail_page_html html currentYear))

/-- Outcome of one identifier's pipeline inside the batch loops of
`ui.py`: `scraper.search_policy` returned a record, returned `None`, or
raised. -/
inductive FetchOutcome (α : Type) where
  | found (r : α)
  | notFound
  | raised
deriving DecidableEq, Repr

/-- The record of a successful pipeline, if any. -/
def okOf : FetchOutcome α → Option α
  | .found r => some r
  | .notFound => none
  | .raised => none

/-- Whether the pipeline outcome is appended to `failed_policies`
(`ui.py` lines 65, 69 / 103, 108): both `None` results and raised
exceptions are. -/
def isFailB : FetchOutcome α → Bool
  | .found _ => false
  | .notFound => true
  | .raised => true

/-- `range(0, total, batch_size)` slicing of the identifier list into
batches.  Fuel-driven: each step removes at least one element when
`0 < bs`, so `l.length` fuel always suffices. -/
def chunksGo (bs : Nat) : Nat → List α → List (List α)
  | 0, _ => []
  | _ + 1, [] => []
  | fuel + 1, x :: xs => (x :: xs).take bs :: chunksGo bs fuel ((x :: xs).drop bs)

/-- The batch slices processed by `process_data` / `process_data_concurrent`
(`ui.py` lines 42-44 and 121-123).  `bs = 0` raises in Python and is
excluded by hypothesis in the theorems below. -/
def chunks (bs : Nat) (l : List α) : List (List α) :=
  if bs = 0 then [] else chunksGo bs l.length l

/-- One iteration of the sequential loop of `process_data` (`ui.py` lines
56-71): a found record is appended to `results`; a `None` result or a
raised exception appends the identifier to `failed_policies` and the loop
continues. -/
def stepSeq (f : String → FetchOutcome α) (acc : List α × List String) (p : String) :
    List α × List String :=
  match f p with
  | .found r => (acc.1 ++ [r], acc.2)
  | .notFound => (acc.1, acc.2 ++ [p])
  | .raised => (acc.1, acc.2 ++ [p])

/-- `process_data` (`ui.py` lines 36-80): iterate the batches in order,
and inside each batch iterate the identifiers in order, accumulating
results and failed identifiers.  The per-identifier pipeline outcome is
the environment input `f`. -/
def process_data (f : String → FetchOutcome α) (bs : Nat) (ids : List String) :
    List α × List String :=
  (chunks bs ids).foldl (fun acc batch => batch.foldl (stepSeq f) acc) ([], [])

/-- One concurrent batch of `process_data_concurrent` (`ui.py` lines
127-140): `asyncio.gather` returns the per-task values in submission
order, and the non-`None` ones are appended to `results`; each task
appends its identifier to `failed_policies` at the moment it completes,
so the failed identifiers of a batch appear in completion order.  The
completion order is an environment input, modelled by sorting the batch
on a priority function (lower priority completes first). -/
def batchConc (f : String → FetchOutcome α) (prio : String → Nat) (batch : List String) :
    List α × List String :=
  (batch.filterMap (fun p => okOf (f p)),
   (List.insertionSort (fun a b => prio a ≤ prio b) batch).filter (fun p => isFailB (f p)))

/-- `process_data_concurrent` (`ui.py` lines 82-153): the batches run one
after another (`await asyncio.gather` per batch), each contributing its
results and its completion-ordered failed identifiers. -/
def process_data_concurrent (f : String → FetchOutcome α) (prio : String → Nat)
    (bs : Nat) (ids : List String) : List α × List String :=
  (chunks bs ids).foldl
    (fun acc batch =>
      ((acc.1 ++ (batchConc f prio batch).1, acc.2 ++ (batchConc f prio batch).2)))
    ([], [])

/-- The candidate loop of Strategy C is the first-match search with the
declarative acceptance predicate: unparsable candidates and candidates
failing validation are skipped and the scan continues. -/
theorem strategyCLoop_eq_find (y : Nat) (l : List (String × String)) :
    strategyCLoop y l = l.find? (validCandidate y) := by
  induction l with
  | nil => rfl
  | cons c rest ih =>
    simp only [strategyCLoop]
    cases hs : strptimeMDY c.1 with
    | none => simp [List.find?, validCandidate, hs, ih]
    | some s =>
      cases he : strptimeMDY c.2 with
      | none => simp [List.find?, validCandidate, hs, he, ih]
      | some e =>
        show (if (y : Int) - 1 ≤ (s.year : Int) ∧
              (e.year : Int) ≤ (y : Int) + 2 ∧ dateLt s e then some c
            else strategyCLoop y rest) = List.find? (validCandidate y) (c :: rest)
        by_cases h : (y : Int) - 1 ≤ (s.year : Int) ∧
            (e.year : Int) ≤ (y : Int) + 2 ∧ dateLt s e
        · simp [List.find?, validCandidate, hs, he, h.1, h.2.1, h.2.2, if_pos h]
        · rw [if_neg h, ih, List.find?]
          have hv : validCandidate y c = false := by
            simp only [validCandidate, hs, he]
            rcases Decidable.not_and_iff_or_not.mp h with h1 | h23
            · simp [h1]
            · rcases Decidable.not_and_iff_or_not.mp h23 with h2 | h3
              · simp [h2]
              · simp [h3]
          rw [hv]

/-- C1: the effective/expiration strategies form an ordered chain in which
the first success wins: whenever the label-anchored Strategy A produces a
date pair on the detail markup, exactly that pair is returned by the field
extractor, for every current year (no plausibility check) and hence
regardless of any other date ranges present in the document. -/
theorem strategy_chain_label_anchored_wins (html : String) (e x : String)
    (hA : strategyA html = some (e, x)) (y : Nat) :
    (parse_detail_page_html html y).effective_date = some e ∧
    (parse_detail_page_html html y).expiration_date = some x := by
  simp [parse_detail_page_html, hA]

/-- Detail markup of the spec's property P1: a label-anchored policy term
plus an unrelated date range elsewhere in the document. -/
def p1Html : String := "01/01/1999 - 01/01/2000 Policy Term: 07/11/2025 - 07/11/2026"

/-- Witness for C1 on the P1 markup: the label-anchored pair is returned
even though an unrelated range appears earlier in the document. -/
theorem strategy_chain_label_anchored_wins_witness :
    (parse_detail_page_html p1Html 2025).effective_date = some "07/11/2025" ∧
    (parse_detail_page_html p1Html 2025).expiration_date = some "07/11/2026" :=
  strategy_chain_label_anchored_wins p1Html "07/11/2025" "07/11/2026" rfl 2025

/-- C2 (amended): when Strategies A and B fail, the extractor returns the
first candidate of the left-to-right non-overlapping range scan that
passes validation (start year at least `currentYear - 1`, end year at most
`currentYear + 2`, end strictly after start); candidates with an
unparsable date are skipped, and a candidate whose end does not strictly
exceed its start is never accepted regardless of its years. -/
theorem strategyC_first_valid_candidate (html : String) (y : Nat)
    (hA : strategyA html = none) (hB : strategyB html = none) :
    (parse_detail_page_html html y).effective_date = (strategyC html y).map Prod.fst ∧
    (parse_detail_page_html html y).expiration_date = (strategyC html y).map Prod.snd ∧
    strategyC html y = (findRanges html).find? (validCandidate y) ∧
    (∀ c : String × String, ∀ s e : PDate, strptimeMDY c.1 = some s →
      strptimeMDY c.2 = some e → ¬dateLt s e → validCandidate y c = false) := by
  refine ⟨?_, ?_, strategyCLoop_eq_find y (findRanges html), ?_⟩
  · simp only [parse_detail_page_html, hA, hB]
    cases hc : strategyC html y with
    | none => rfl
    | some p => cases p; rfl
  · simp only [parse_detail_page_html, hA, hB]
    cases hc : strategyC html y with
    | none => rfl
    | some p => cases p; rfl
  · intro c s e h1 h2 h3
    simp [validCandidate, h1, h2, h3]

/-- Unlabelled markup whose range scan yields, in order: a candidate with
an unparsable start date, a candidate whose end precedes its start, and a
valid candidate. -/
def c2Html : String :=
  "13/01/2025 - 01/01/2026 06/30/2025 - 06/01/2025 06/01/2025 - 06/01/2026"

/-- Witness for C2 (amended) with current year 2025: the first two
candidates are skipped and the third is returned. -/
theorem strategyC_first_valid_candidate_witness :
    (parse_detail_page_html c2Html 2025).effective_date = some "06/01/2025" ∧
    (parse_detail_page_html c2Html 2025).expiration_date = some "06/01/2026" := by
  have h := strategyC_first_valid_candidate c2Html 2025 rfl rfl
  exact ⟨by rw [h.1]; rfl, by rw [h.2.1]; rfl⟩

/-- A document in which the substring `06/01/2025 - 06/01/2026` — a
perfectly valid candidate for current year 2025 — overlaps the first
(unparsable, hence rejected) non-overlapping scan match and is therefore
never considered. -/
def c2OverlapDoc : String := "99/99/2025 - 06/01/2025 - 06/01/2026"

/-- Counterexample to C2 as stated: the document contains a substring of
the form `MM/DD/YYYY - MM/DD/YYYY` that passes validation for current
year 2025, yet Strategy C (a non-overlapping `re.findall` scan, not a
scan of every substring) returns nothing, because that substring overlaps
the rejected first match. -/
theorem strategyC_misses_overlapping_candidate :
    containsSub "06/01/2025 - 06/01/2026" c2OverlapDoc = true ∧
    validCandidate 2025 ("06/01/2025", "06/01/2026") = true ∧
    strategyC c2OverlapDoc 2025 = none ∧
    (parse_detail_page_html c2OverlapDoc 2025).effective_date = none := by
  exact ⟨rfl, by decide, rfl, rfl⟩

/-- C7 (amended): when the structural label/value pattern of Strategy B
matches with captured text `raw`, Strategy B returns the hyphen split of
the trimmed text exactly when that split has two parts — the parts are
trimmed but may be empty — and, when additionally Strategy A failed, that
split is what the extractor returns. -/
theorem strategyB_split_exactly_two_parts (html : String) (raw : List Char)
    (hB : searchBText html = some raw) :
    strategyB html = splitTermText raw ∧
    ((strategyB html).isSome ↔ ((pySplitHyphen (pyStrip raw)).map pyStrip).length = 2) ∧
    (∀ y : Nat, ∀ a b : String, strategyA html = none → splitTermText raw = some (a, b) →
      (parse_detail_page_html html y).effective_date = some a ∧
      (parse_detail_page_html html y).expiration_date = some b) := by
  have hstep : strategyB html = splitTermText raw := by
    simp [strategyB, hB]
  refine ⟨hstep, ?_, ?_⟩
  · rw [hstep]
    unfold splitTermText
    cases hml : ((pySplitHyphen (pyStrip raw)).map pyStrip) with
    | nil => simp
    | cons a t =>
      cases t with
      | nil => simp
      | cons b t2 =>
        cases t2 with
        | nil => simp
        | cons c t3 => simp
  · intro y a b hA hsp
    have hb : strategyB html = some (a, b) := by rw [hstep, hsp]
    simp [parse_detail_page_html, hA, hb]

/-- Detail markup with a structural `Policy Term` pair whose value text
ends in a hyphen, so the hyphen split yields an empty second part. -/
def c7Html : String := "<dt>Policy Term:</dt><dd>07/11/2025-</dd>"

/-- Counterexample to C7 as stated: the split of the value text
`07/11/2025-` yields the parts `07/11/2025` and the empty string — not
two non-empty parts — yet Strategy B succeeds, returning the empty string
as the expiration date. -/
theorem strategyB_accepts_empty_part :
    strategyA c7Html = none ∧
    strategyB c7Html = some ("07/11/2025", "") ∧
    (parse_detail_page_html c7Html 2025).expiration_date = some "" :=
  ⟨rfl, rfl, rfl⟩

/-- Structural markup whose value text splits into two non-empty parts
that are not date-shaped (so Strategies A and C cannot fire). -/
def c7WitnessHtml : String := "<dt>Policy Term:</dt><dd>July 1 2025 - July 1 2026</dd>"

/-- Witness for C7 (amended): a two-part split succeeds and its parts are
returned by the extractor. -/
theorem strategyB_split_exactly_two_parts_witness :
    strategyB c7WitnessHtml = some ("July 1 2025", "July 1 2026") ∧
    (parse_detail_page_html c7WitnessHtml 2025).effective_date = some "July 1 2025" := by
  have h := strategyB_split_exactly_two_parts c7WitnessHtml "July 1 2025 - July 1 2026".data rfl
  exact ⟨by rw [h.1]; rfl, (h.2.2 2025 "July 1 2025" "July 1 2026" rfl rfl).1⟩

/-- The merge applied to an empty extraction result changes nothing: the
summary data passes through with both detail-only keys absent. -/
theorem process_policy_merge_empty (s : SearchData) :
    process_policy_merge s {} = asMerged s := rfl

/-- C3: in the assembled record, `effective_date` and `expiration_date`
come from the detail extraction exactly when the extractor produced a
truthy (present and non-empty) value for that field, and otherwise from
the summary data; `cancellation_date` is derived from the detail
extraction alone (the summary data has no such field); and every other
summary field passes through the merge unchanged. -/
theorem process_policy_merge_precedence (s : SearchData) (d : Details) :
    ((process_policy_merge s d).effective_date =
      if truthyStr d.effective_date then d.effective_date.getD "" else s.effective_date) ∧
    ((process_policy_merge s d).expiration_date =
      if truthyStr d.expiration_date then d.expiration_date else none) ∧
    ((process_policy_merge s d).cancellation_date =
      if truthyStr d.cancellation_date then d.cancellation_date else none) ∧
    (process_policy_merge s d).status = s.status ∧
    (process_policy_merge s d).applicant_company = s.applicant_company ∧
    (process_policy_merge s d).state = s.state ∧
    (process_policy_merge s d).program = s.program ∧
    (process_policy_merge s d).total_cost = s.total_cost ∧
    (process_policy_merge s d).policy_number = s.policy_number ∧
    (process_policy_merge s d).app_id = s.app_id := by
  refine ⟨?_, ?_, ?_, rfl, rfl, rfl, rfl, rfl, rfl, rfl⟩
  · cases h : d.effective_date with
    | none => simp [process_policy_merge, truthyStr, h]
    | some t =>
      by_cases ht : t.isEmpty <;> simp [process_policy_merge, truthyStr, h, ht]
  · cases h : d.expiration_date with
    | none => simp [process_policy_merge, truthyStr, h]
    | some t =>
      by_cases ht : t.isEmpty <;> simp [process_policy_merge, truthyStr, h, ht]
  · cases h : d.cancellation_date with
    | none => simp [process_policy_merge, truthyStr, h]
    | some t =>
      by_cases ht : t.isEmpty <;> simp [process_policy_merge, truthyStr, h, ht]

/-- C4 (amended): in the requests-hybrid assembler, once the summary
search produced data, a failed detail fetch still yields a complete
record — the summary fields pass through and the detail-only date keys
stay absent — and indeed any detail response yields a record; only a
failed summary search fails the identifier.  (In the browser-based
assembler this holds only for a navigation that lands off the detail
page; see the counterexample for a raised detail navigation.) -/
theorem process_policy_detail_failure_degrades (s : SearchData) (dresp : Option String)
    (y : Nat) :
    process_policy (some s) none y = some (asMerged s) ∧
    (process_policy (some s) dresp y).isSome = true ∧
    process_policy none dresp y = none := by
  refine ⟨?_, ?_, rfl⟩
  · have hred : process_policy (some s) none y =
        if (!s.app_id.isEmpty) = true then some (process_policy_merge s {})
        else some (asMerged s) := rfl
    rw [hred, process_policy_merge_empty]
    split <;> rfl
  · have hred : process_policy (some s) dresp y =
        if (!s.app_id.isEmpty) = true then
          some (process_policy_merge s (get_application_details dresp y))
        else some (asMerged s) := rfl
    rw [hred]
    split <;> rfl

/-- A concrete matched summary row for the browser-based assembler. -/
def c4Row : RowData := ⟨"12345", "Active", "ACME LLC", "CA", "General Liability", "$1,000.00"⟩

/-- Counterexample to C4 as stated: in the browser-based assembler
`scraper.search_policy`, the summary search finds the matching row, but
the detail navigation raises (transport error, unreachable host); the
`except` clause at `scraper.py` line 132 then returns `None`, so the
identifier is classified as failed despite its successful summary fetch. -/
theorem search_policy_detail_exception_fails :
    search_policy "SCB-GL-000077835" (some c4Row) DetailNav.exc 2025 = none := rfl

/-- C8: whenever the matched summary row has the full column layout (at
least nine cells), the row parse yields the given `app_id` together with
the positional columns status, applicant company, state, program, total
cost and effective date, and an empty detail extraction leaves that
summary effective date in the assembled record. -/
theorem extract_row_positional (pn appId rowHtml : String)
    (h : 9 ≤ (findTds rowHtml).length) :
    extract_row_data pn appId rowHtml =
      { policy_number := pn, app_id := appId,
        status := clean_cell_text ((findTds rowHtml).getD 3 ""),
        applicant_company := clean_cell_text ((findTds rowHtml).getD 4 ""),
        state := clean_cell_text ((findTds rowHtml).getD 5 ""),
        program := clean_cell_text ((findTds rowHtml).getD 6 ""),
        total_cost := clean_cell_text ((findTds rowHtml).getD 7 ""),
        effective_date := clean_cell_text ((findTds rowHtml).getD 8 "") } ∧
    (process_policy_merge (extract_row_data pn appId rowHtml) {}).effective_date =
      clean_cell_text ((findTds rowHtml).getD 8 "") := by
  have h1 : extract_row_data pn appId rowHtml =
      { policy_number := pn, app_id := appId,
        status := clean_cell_text ((findTds rowHtml).getD 3 ""),
        applicant_company := clean_cell_text ((findTds rowHtml).getD 4 ""),
        state := clean_cell_text ((findTds rowHtml).getD 5 ""),
        program := clean_cell_text ((findTds rowHtml).getD 6 ""),
        total_cost := clean_cell_text ((findTds rowHtml).getD 7 ""),
        effective_date := clean_cell_text ((findTds rowHtml).getD 8 "") } := by
    dsimp only [extract_row_data]
    rw [if_pos (show (findTds rowHtml).length ≥ 9 from h)]
  refine ⟨h1, ?_⟩
  rw [h1]
  rfl

/-- A summary row with the full nine-cell layout. -/
def c8Row : String :=
  "<td></td><td>42</td><td>PN-9</td><td>Active</td><td>ACME &nbsp;Co</td><td>CA</td><td>GL</td><td>$1,200</td><td>06/13/2025</td>"

set_option maxRecDepth 20000 in
/-- Witness for C8: the ninth cell of the row becomes the summary
effective date, and it survives a merge with an empty extraction. -/
theorem extract_row_positional_witness :
    (extract_row_data "PN-9" "42" c8Row).effective_date = "06/13/2025" ∧
    (process_policy_merge (extract_row_data "PN-9" "42" c8Row) {}).effective_date =
      "06/13/2025" := by
  have h := extract_row_positional "PN-9" "42" c8Row (by decide)
  exact ⟨by rw [h.1]; rfl, by rw [h.2]; rfl⟩

/-- The fixed key list of the browser-based assembler's output dict. -/
def tenKeys : List String :=
  ["policy_number", "app_id", "status", "applicant_company", "state",
   "program", "total_cost", "effective_date", "expiration_date", "cancellation_date"]

/-- C10: every record produced by the browser-based assembler carries
exactly the ten fixed keys, in source order, each mapped to a string; the
three date keys are always present, mapped to the extracted value or to
the empty string when the extraction produced nothing for them — in
particular `cancellation_date` is the empty string on non-cancelled
policies; and every non-`None` result of `search_policy` is such a
record. -/
theorem search_policy_record_shape (pn : String) (r : RowData) (d : Details) (y : Nat)
    (nav : DetailNav) :
    (search_policy_record pn r d).map Prod.fst = tenKeys ∧
    (search_policy_record pn r d).length = 10 ∧
    (search_policy_record pn r d).lookup "effective_date" = some (d.effective_date.getD "") ∧
    (search_policy_record pn r d).lookup "expiration_date" = some (d.expiration_date.getD "") ∧
    (search_policy_record pn r d).lookup "cancellation_date" = some (d.cancellation_date.getD "") ∧
    (∀ rec, search_policy pn (some r) nav y = some rec →
      ∃ dd : Details, rec = search_policy_record pn r dd) := by
  refine ⟨rfl, rfl, rfl, rfl, rfl, ?_⟩
  intro rec hrec
  cases nav with
  | exc => exact absurd hrec (by simp [search_policy])
  | offPage =>
    simp only [search_policy] at hrec
    exact ⟨{}, (Option.some.inj hrec).symm⟩
  | ok html =>
    simp only [search_policy] at hrec
    exact ⟨parse_detail_page_html html y, (Option.some.inj hrec).symm⟩

/-- A concrete summary row for the record-shape witness. -/
def c10Row : RowData := ⟨"777", " Bound ", "Beta Corp", "TX", "GL", "$2,500"⟩

/-- Witness for C10: with an empty extraction every date key is present
and maps to the empty string, the key list is the fixed ten, and a
degraded `search_policy` result is such a record. -/
theorem search_policy_record_shape_witness :
    (search_policy_record "SCB-1" c10Row {}).lookup "cancellation_date" = some "" ∧
    (search_policy_record "SCB-1" c10Row {}).lookup "effective_date" = some "" ∧
    (search_policy_record "SCB-1" c10Row {}).map Prod.fst = tenKeys ∧
    (∃ dd : Details, search_policy_record "SCB-1" c10Row {} =
      search_policy_record "SCB-1" c10Row dd) := by
  have h := search_policy_record_shape "SCB-1" c10Row {} 2025 DetailNav.offPage
  exact ⟨h.2.2.2.2.1, h.2.2.1, h.1,
    h.2.2.2.2.2 (search_policy_record "SCB-1" c10Row {}) rfl⟩

/-- With positive batch size, enough fuel, and the slicing of `chunksGo`,
concatenating the batches gives back the identifier list. -/
theorem chunksGo_join {α : Type} (bs : Nat) (hbs : 0 < bs) :
    ∀ (fuel : Nat) (l : List α), l.length ≤ fuel → (chunksGo bs fuel l).flatten = l := by
  intro fuel
  induction fuel with
  | zero =>
    intro l hl
    have : l = [] := List.eq_nil_of_length_eq_zero (Nat.le_zero.mp hl)
    subst this
    rfl
  | succ fuel ih =>
    intro l hl
    cases l with
    | nil => rfl
    | cons x xs =>
      show ((x :: xs).take bs :: chunksGo bs fuel ((x :: xs).drop bs)).flatten = x :: xs
      rw [List.flatten_cons, ih ((x :: xs).drop bs) ?_, List.take_append_drop]
      have hd : ((x :: xs).drop bs).length = (x :: xs).length - bs := List.length_drop bs (x :: xs)
      have hlen : (x :: xs).length = xs.length + 1 := List.length_cons x xs
      omega

/-- Concatenating the batch slices gives back the identifier list. -/
theorem chunks_join {α : Type} (bs : Nat) (hbs : 0 < bs) (l : List α) :
    (chunks bs l).flatten = l := by
  unfold chunks
  rw [if_neg (Nat.pos_iff_ne_zero.mp hbs)]
  exact chunksGo_join bs hbs l.length l (Nat.le_refl _)

/-- Folding a step function batch by batch is folding it over the
concatenation of the batches. -/
theorem foldl_over_batches {σ γ : Type} (g : σ → γ → σ) :
    ∀ (L : List (List γ)) (a : σ),
      L.foldl (fun acc batch => batch.foldl g acc) a = L.flatten.foldl g a := by
  intro L
  induction L with
  | nil => intro a; rfl
  | cons l L ih =>
    intro a
    show L.foldl (fun acc batch => batch.foldl g acc) (l.foldl g a) = (l ++ L.flatten).foldl g a
    rw [List.foldl_append]
    exact ih (l.foldl g a)

/-- The sequential loop appends each found record to the results and each
failing identifier to the failed list, in iteration order. -/
theorem foldl_stepSeq {α : Type} (f : String → FetchOutcome α) :
    ∀ (ids : List String) (acc : List α × List String),
      ids.foldl (stepSeq f) acc =
        (acc.1 ++ ids.filterMap (fun p => okOf (f p)),
         acc.2 ++ ids.filter (fun p => isFailB (f p))) := by
  intro ids
  induction ids with
  | nil => intro acc; simp
  | cons p rest ih =>
    intro acc
    rw [List.foldl_cons, ih]
    cases h : f p with
    | found r => simp [stepSeq, h, okOf, isFailB]
    | notFound => simp [stepSeq, h, okOf, isFailB]
    | raised => simp [stepSeq, h, okOf, isFailB]

/-- Every identifier is classified exactly once: found records and failing
identifiers partition the input. -/
theorem okFail_length {α : Type} (f : String → FetchOutcome α) :
    ∀ ids : List String,
      (ids.filterMap (fun p => okOf (f p))).length +
        (ids.filter (fun p => isFailB (f p))).length = ids.length := by
  intro ids
  induction ids with
  | nil => rfl
  | cons p rest ih =>
    cases h : f p with
    | found r =>
      simp only [okOf, isFailB] at ih ⊢
      simp [h]
      omega
    | notFound =>
      simp only [okOf, isFailB] at ih ⊢
      simp [h]
      omega
    | raised =>
      simp only [okOf, isFailB] at ih ⊢
      simp [h]
      omega

/-- The sequential `process_data`, characterized: results are the found
records in input order, failed identifiers are the failing ones in input
order. -/
theorem process_data_eq {α : Type} (f : String → FetchOutcome α) (bs : Nat)
    (ids : List String) (h : 0 < bs) :
    process_data f bs ids =
      (ids.filterMap (fun p => okOf (f p)), ids.filter (fun p => isFailB (f p))) := by
  unfold process_data
  rw [foldl_over_batches, chunks_join bs h ids, foldl_stepSeq]
  simp

set_option maxRecDepth 4000 in
/-- Batch-by-batch accumulation of the concurrent runner, flattened. -/
theorem conc_foldl {α : Type} (f : String → FetchOutcome α) (prio : String → Nat) :
    ∀ (L : List (List String)) (acc : List α × List String),
      L.foldl (fun acc batch =>
          ((acc.1 ++ (batchConc f prio batch).1, acc.2 ++ (batchConc f prio batch).2))) acc =
        (acc.1 ++ (L.map (fun b => (batchConc f prio b).1)).flatten,
         acc.2 ++ (L.map (fun b => (batchConc f prio b).2)).flatten) := by
  intro L
  induction L with
  | nil => intro acc; simp
  | cons b L ih =>
    intro acc
    rw [List.foldl_cons, ih]
    rw [List.map_cons, List.map_cons, List.flatten_cons, List.flatten_cons]
    rw [← List.append_assoc, ← List.append_assoc]

/-- Per-batch found records, concatenated, are the found records of the
concatenated batches. -/
theorem filterMap_join {α : Type} (g : String → Option α) :
    ∀ L : List (List String), (L.map (fun b => b.filterMap g)).flatten = L.flatten.filterMap g := by
  intro L
  induction L with
  | nil => rfl
  | cons b L ih =>
    rw [List.map_cons, List.flatten_cons, List.flatten_cons, List.filterMap_append, ih]

/-- The completion-ordered failed identifiers of each batch, concatenated,
are a permutation of the failing identifiers of the concatenated batches
in input order. -/
theorem conc_failed_perm {α : Type} (f : String → FetchOutcome α) (prio : String → Nat) :
    ∀ L : List (List String),
      ((L.map (fun b => (batchConc f prio b).2)).flatten).Perm
        (L.flatten.filter (fun p => isFailB (f p))) := by
  intro L
  induction L with
  | nil => simp
  | cons b L ih =>
    show ((List.insertionSort (fun a c => prio a ≤ prio c) b).filter (fun p => isFailB (f p)) ++
        (L.map (fun b => (batchConc f prio b).2)).flatten).Perm ((b ++ L.flatten).filter (fun p => isFailB (f p)))
    rw [List.filter_append]
    exact List.Perm.append ((List.perm_insertionSort _ b).filter _) ih

/-- C6: for every pipeline-outcome environment, both batch runners attempt
every identifier exactly once and classify each as a success or a failure
using only that identifier's own outcome: the sequential runner returns
exactly the found records and the failing identifiers in input order, the
concurrent runner returns the same found records and a permutation of the
same failing identifiers, and in both runners the result and failed counts
sum to the input count — no failure aborts the batch or causes another
identifier to be skipped. -/
theorem batch_isolation {α : Type} (f : String → FetchOutcome α) (prio : String → Nat)
    (bs : Nat) (ids : List String) (h : 0 < bs) :
    process_data f bs ids =
      (ids.filterMap (fun p => okOf (f p)), ids.filter (fun p => isFailB (f p))) ∧
    (process_data f bs ids).1.length + (process_data f bs ids).2.length = ids.length ∧
    (process_data_concurrent f prio bs ids).1 = ids.filterMap (fun p => okOf (f p)) ∧
    (process_data_concurrent f prio bs ids).2.Perm (ids.filter (fun p => isFailB (f p))) ∧
    (process_data_concurrent f prio bs ids).1.length +
      (process_data_concurrent f prio bs ids).2.length = ids.length := by
  have hseq := process_data_eq f bs ids h
  have hc := conc_foldl f prio (chunks bs ids) ([], [])
  have hc1 : (process_data_concurrent f prio bs ids).1 =
      ids.filterMap (fun p => okOf (f p)) := by
    unfold process_data_concurrent
    rw [hc]
    show (((chunks bs ids).map (fun b => (batchConc f prio b).1)).flatten) = _
    have : ((chunks bs ids).map (fun b => (batchConc f prio b).1)) =
        ((chunks bs ids).map (fun b => b.filterMap (fun p => okOf (f p)))) := rfl
    rw [this, filterMap_join, chunks_join bs h ids]
  have hc2 : (process_data_concurrent f prio bs ids).2.Perm
      (ids.filter (fun p => isFailB (f p))) := by
    unfold process_data_concurrent
    rw [hc]
    show (((chunks bs ids).map (fun b => (batchConc f prio b).2)).flatten).Perm _
    have := conc_failed_perm f prio (chunks bs ids)
    rw [chunks_join bs h ids] at this
    exact this
  refine ⟨hseq, ?_, hc1, hc2, ?_⟩
  · rw [hseq]
    exact okFail_length f ids
  · rw [hc1, hc2.length_eq]
    exact okFail_length f ids

/-- A pipeline-outcome environment: identifiers `B` and `C` fail (not
found and raised, respectively), all others yield a record. -/
def c6f : String → FetchOutcome Nat :=
  fun s => if s = "B" then .notFound else if s = "C" then .raised else .found 7

/-- Witness for C6: four identifiers processed in batches of two, with one
`None` result and one raised exception; both failing identifiers are
classified, both records are returned, and nothing is skipped. -/
theorem batch_isolation_witness :
    process_data c6f 2 ["A", "B", "C", "D"] = ([7, 7], ["B", "C"]) ∧
    (process_data_concurrent c6f (fun _ => 0) 2 ["A", "B", "C", "D"]).2.Perm
      (["A", "B", "C", "D"].filter (fun p => isFailB (c6f p))) := by
  have h := batch_isolation c6f (fun _ => 0) 2 ["A", "B", "C", "D"] (by decide)
  exact ⟨h.1.trans (by decide), h.2.2.2.1⟩

/-- C9 (amended): the sequential runner's failed list is exactly the
failing identifiers in original input order (a sublist of the input); the
concurrent runner preserves input order only across batches, its failed
list within a batch following completion order. -/
theorem process_data_failed_input_order {α : Type} (f : String → FetchOutcome α)
    (bs : Nat) (ids : List String) (h : 0 < bs) :
    (process_data f bs ids).2 = ids.filter (fun p => isFailB (f p)) ∧
    (process_data f bs ids).2.Sublist ids := by
  have hseq := process_data_eq f bs ids h
  constructor
  · rw [hseq]
  · rw [hseq]
    exact List.filter_sublist ids

/-- A pipeline-outcome environment where only identifier `A` succeeds. -/
def c9f : String → FetchOutcome Nat :=
  fun s => if s = "A" then .found 1 else .notFound

/-- Witness for C9 (amended): the failed list of a sequential run equals
the failing identifiers in input order. -/
theorem process_data_failed_input_order_witness :
    (process_data c9f 3 ["A", "B", "C"]).2 = ["B", "C"] ∧
    (process_data c9f 3 ["A", "B", "C"]).2.Sublist ["A", "B", "C"] := by
  have h := process_data_failed_input_order c9f 3 ["A", "B", "C"] (by decide)
  exact ⟨h.1.trans (by decide), h.2⟩

/-- Counterexample to C9 as stated: a concurrent batch of two failing
identifiers in which the second completes first.  Each task appends its
identifier to the shared failed list at completion (`ui.py` lines 103,
108), so the failed list is `["B", "A"]`, not the input order
`["A", "B"]`. -/
theorem concurrent_failed_completion_order :
    process_data_concurrent (fun _ => (FetchOutcome.notFound : FetchOutcome Unit))
      (fun s => if s = "A" then 1 else 0) 20 ["A", "B"] = ([], ["B", "A"]) ∧
    ["A", "B"].filter
      (fun p => isFailB ((fun _ => (FetchOutcome.notFound : FetchOutcome Unit)) p)) =
      ["A", "B"] ∧
    (["B", "A"] : List String) ≠ ["A", "B"] := by
  refine ⟨by decide, by decide, by decide⟩
